import Mathlib

/-!
# Phoenix-RTOS kernel, system calls (`src/syscalls.c`)

A shallow embedding of the syscall dispatcher and of the signal, memory-map and
handle-creation handlers, followed by the properties established about them.

Conventions of the embedding.

* C `int` values are `Int`s; where the source converts or truncates, the
  conversion is written out (`toSizeT`, `toUnsigned`, `toInt`).
* Pointer values are `Int`s as well: the signed reading of the machine word, so
  `NULL` is `0`, `(void *)-1` is `-1` and `(void *)-EINVAL` is `-EINVAL`.
* Collaborators that live outside `syscalls.c` (`proc_*`, `threads_*`, `vm_*`,
  `file_*`, `hal_*`) are parameters of the handler that calls them.
-/

namespace Syscalls

/-! ## Machine integers and the argument buffer -/

/-- Conversion of a C `int` to `size_t` for a `size_t` of `bits` bits: reduction
modulo `2 ^ bits`. -/
def toSizeT (bits : Nat) (n : Int) : Nat := (n % 2 ^ bits).toNat

/-- Conversion of a machine word to `unsigned` (32 bits). -/
def toUnsigned (v : Int) : Nat := (v % 2 ^ 32).toNat

/-- Conversion of a machine word to a 32-bit `int` (two's complement). -/
def toInt (v : Int) : Int :=
  if v % 2 ^ 32 < 2 ^ 31 then v % 2 ^ 32 else v % 2 ^ 32 - 2 ^ 32

/-- Bitwise complement of an `unsigned` (32 bits). -/
def notUnsigned (v : Nat) : Nat := (2 ^ 32 - 1) ^^^ (v % 2 ^ 32)

/-- Modelled from the spec: the argument buffer read by the HAL macro
`GETFROMSTACK(ustack, type, var, k)`, which is not part of `syscalls.c`. The
spec fixes only that argument `k` is found by position and decoded at its
declared type, so the buffer is the map from position to the raw argument
word. -/
abbrev ArgBuf := Nat → Int

/-- `GETFROMSTACK(ustack, int, v, k)`. -/
def getInt (ustack : ArgBuf) (k : Nat) : Int := toInt (ustack k)

/-- `GETFROMSTACK(ustack, unsigned, v, k)`. -/
def getUnsigned (ustack : ArgBuf) (k : Nat) : Nat := toUnsigned (ustack k)

/-- `GETFROMSTACK(ustack, T, v, k)` for a `T` as wide as the machine word
(pointers, `size_t`, `off_t`): the raw argument word. -/
def getWord (ustack : ArgBuf) (k : Nat) : Int := ustack k

/-- Error numbers of `include/errno.h`. The header is not among the sources, so
the numbers are parameters; the source only ever uses them negated. -/
structure Errno where
  EINVAL : Nat
  EINTR : Nat
  ENOMEM : Nat
  EBADF : Nat

/-- Modelled from the spec: `EOK` of `include/errno.h` ("EOK(=0)"). -/
def EOK : Int := 0

/-- User memory seen through the pointers a handler dereferences: the word
stored at each address. -/
abbrev Mem := Int → Int

/-- The store `*a = v`. -/
def Mem.write (m : Mem) (a v : Int) : Mem := fun x => if x = a then v else m x

/-! ## Dispatcher -/

/-- An entry of the `syscalls` table called through the cast
`(void *(*)(char *))syscalls[n]`: it receives the argument buffer, acts on the
kernel state and leaves a word in the return register. -/
abbrev Handler (σ : Type) := ArgBuf → σ → Int × σ

/-- What `syscalls_dispatch` depends on besides its arguments. The table is
generated by the `SYSCALLS` macro of `include/syscalls.h` and the thread by
`proc/threads.h`, neither among the sources, so both are parameters. -/
structure DispatchEnv (σ : Type) where
  /-- Error numbers. -/
  errno : Errno
  /-- Width of `size_t` in bits. -/
  sizeBits : Nat
  /-- The table `syscalls[]`. -/
  syscalls : List (Handler σ)
  /-- Reading `proc_current()->exit`. -/
  exit : σ → Bool
  /-- Reading `proc_current()->stop`. -/
  stop : σ → Bool
  /-- Collaborator `proc_threadStop()`: the state in which the thread is
  resumed. -/
  proc_threadStop : σ → σ

/-- How a call of `syscalls_dispatch` ends. -/
inductive Outcome (σ : Type) where
  /-- Control is back in the caller with `retval`. -/
  | returned (retval : Int) (s : σ)
  /-- Modelled from the spec: `proc_threadEnd()` was called; "ending a thread is
  terminal for this dispatch (control never returns)". -/
  | ended (s : σ)
  /-- The deferred-action loop is still running when the fuel is spent. -/
  | spinning
  /-- The table was indexed outside its bounds. -/
  | undefined

/-- Result of a dispatch together with the handler invocations it made, each
recorded as table index and argument buffer. -/
structure Dispatched (σ : Type) where
  outcome : Outcome σ
  calls : List (Nat × ArgBuf)

/-- The loop `while (current->exit || current->stop) { ... }` that ends
`syscalls_dispatch`; `fuel` bounds the number of iterations. -/
def deferredLoop {σ : Type} (env : DispatchEnv σ) (retval : Int) : Nat → σ → Outcome σ
  | 0, s =>
    if env.exit s || env.stop s then
      if env.exit s then .ended s else .spinning
    else .returned retval s
  | fuel + 1, s =>
    if env.exit s || env.stop s then
      if env.exit s then .ended s
      else if env.stop s then deferredLoop env retval fuel (env.proc_threadStop s)
      else deferredLoop env retval fuel s
    else .returned retval s

/-- The function `syscalls_dispatch(n, ustack)`. -/
def syscalls_dispatch {σ : Type} (env : DispatchEnv σ) (fuel : Nat) (n : Int)
    (ustack : ArgBuf) (s : σ) : Dispatched σ :=
  if toSizeT env.sizeBits n ≥ env.syscalls.length then
    ⟨.returned (-(env.errno.EINVAL : Int)) s, []⟩
  else
    match (if 0 ≤ n then env.syscalls.get? n.toNat else none) with
    | none => ⟨.undefined, []⟩
    | some handler =>
      let r := handler ustack s
      ⟨deferredLoop env r.1 fuel r.2, [(n.toNat, ustack)]⟩

/-! ## Threads and processes -/

/-- The fields of `process_t` (`proc/process.h`, not among the sources) that the
handlers below touch. -/
structure Process where
  /-- Field `sigmask`. -/
  sigmask : Nat
  /-- Field `sigtrampoline`. -/
  sigtrampoline : Int
  deriving DecidableEq, Repr

/-- The fields of `thread_t` (`proc/threads.h`, not among the sources) that the
handlers below touch; `process` stands for the object `thread->process` points
to. -/
structure Thread where
  /-- Field `sigmask`. -/
  sigmask : Nat
  /-- Field `priority`. -/
  priority : Int
  /-- Field `exit`. -/
  exit : Bool
  /-- Field `stop`. -/
  stop : Bool
  /-- The process behind the pointer `process`. -/
  process : Process
  deriving DecidableEq, Repr

/-! ## Signal mask and trampoline -/

/-- The function `syscalls_signalMask(ustack)` run by thread `t`
(`t = proc_current()`): the value returned and the thread afterwards. -/
def syscalls_signalMask (ustack : ArgBuf) (t : Thread) : Nat × Thread :=
  let mask := getUnsigned ustack 0
  let mmask := getUnsigned ustack 1
  let old := t.sigmask
  (old, { t with sigmask := (mask &&& mmask) ||| (t.sigmask &&& notUnsigned mmask) })

/-- The function `syscalls_signalHandle(ustack)` run by thread `thread`
(`thread = proc_current()`): the thread afterwards. Both assignments go through
`thread->process`. -/
def syscalls_signalHandle (ustack : ArgBuf) (thread : Thread) : Thread :=
  let handler := getWord ustack 0
  let mask := getUnsigned ustack 1
  let mmask := getUnsigned ustack 2
  let thread1 := { thread with process := { thread.process with
    sigmask := (mask &&& mmask) ||| (thread.process.sigmask &&& notUnsigned mmask) } }
  { thread1 with process := { thread1.process with sigtrampoline := handler } }

/-! ## Posting a signal -/

/-- What `syscalls_signalPost` makes observable: reference traffic, delivery and
the reschedule request. Objects are named by their address. -/
inductive Event where
  /-- A `proc_find` that found the process at `proc`. -/
  | procGet (proc : Int)
  /-- A `proc_put(proc)` of a non-null `proc`. -/
  | procPut (proc : Int)
  /-- A `threads_findThread` that found the thread at `t`. -/
  | threadGet (t : Int)
  /-- A `threads_put(t)` of a non-null `t`. -/
  | threadPut (t : Int)
  /-- The call `threads_sigpost(proc, t, signal)`. -/
  | sigpost (proc t signal : Int)
  /-- The call `hal_cpuReschedule(NULL)`. -/
  | reschedule
  deriving DecidableEq, Repr

/-- Kernel state seen by `syscalls_signalPost`: the reference count of each
process and thread object, and the events so far (oldest first). -/
structure Kernel where
  procRefs : Int → Int
  threadRefs : Int → Int
  trace : List Event

/-- Adding `d` to the count kept for object `x`. -/
def bump (refs : Int → Int) (x d : Int) : Int → Int :=
  fun y => if y = x then refs y + d else refs y

/-- Lookups and delivery, which live in `proc/`: what each lookup finds (`0` is
`NULL`), the process a thread points to, and the result of a delivery. -/
structure PostEnv where
  /-- Error numbers. -/
  errno : Errno
  /-- The process `proc_find(pid)` finds. -/
  findProc : Int → Int
  /-- The thread `threads_findThread(tid)` finds. -/
  findThread : Int → Int
  /-- Reading `t->process`. -/
  process : Int → Int
  /-- The value `threads_sigpost(proc, t, signal)` returns. -/
  sigpostResult : Int → Int → Int → Int

/-- Modelled from the spec: `proc_find(pid)` of `proc/process.c`, "reference
count up on lookup": a successful lookup adds one reference to what it found. -/
def proc_find (env : PostEnv) (pid : Int) (k : Kernel) : Int × Kernel :=
  let proc := env.findProc pid
  if proc = 0 then (0, k)
  else (proc, { k with procRefs := bump k.procRefs proc 1, trace := k.trace ++ [.procGet proc] })

/-- Modelled from the spec: `threads_findThread(tid)` of `proc/threads.c`,
"reference count up on lookup". -/
def threads_findThread (env : PostEnv) (tid : Int) (k : Kernel) : Int × Kernel :=
  let t := env.findThread tid
  if t = 0 then (0, k)
  else (t, { k with threadRefs := bump k.threadRefs t 1, trace := k.trace ++ [.threadGet t] })

/-- Modelled from the spec: `proc_put(proc)` of `proc/process.c`, "down on
release"; nothing happens for `NULL`. -/
def proc_put (proc : Int) (k : Kernel) : Kernel :=
  if proc = 0 then k
  else { k with procRefs := bump k.procRefs proc (-1), trace := k.trace ++ [.procPut proc] }

/-- Modelled from the spec: `threads_put(t)` of `proc/threads.c`, "down on
release"; nothing happens for `NULL`. -/
def threads_put (t : Int) (k : Kernel) : Kernel :=
  if t = 0 then k
  else { k with threadRefs := bump k.threadRefs t (-1), trace := k.trace ++ [.threadPut t] }

/-- The call `threads_sigpost(proc, t, signal)`: recorded, its result taken from
the environment. -/
def threads_sigpost (env : PostEnv) (proc t signal : Int) (k : Kernel) : Int × Kernel :=
  (env.sigpostResult proc t signal, { k with trace := k.trace ++ [.sigpost proc t signal] })

/-- The call `hal_cpuReschedule(NULL)`: recorded. -/
def hal_cpuReschedule (k : Kernel) : Kernel :=
  { k with trace := k.trace ++ [.reschedule] }

/-- The function `syscalls_signalPost(ustack)`: the value returned and the
kernel state afterwards. -/
def syscalls_signalPost (env : PostEnv) (ustack : ArgBuf) (k : Kernel) : Int × Kernel :=
  let pid := getInt ustack 0
  let tid := getInt ustack 1
  let signal := getInt ustack 2
  let f := proc_find env pid k
  let proc := f.1
  if proc = 0 then (-(env.errno.EINVAL : Int), f.2)
  else
    let g := if tid ≥ 0 then threads_findThread env tid f.2 else (0, f.2)
    let t := g.1
    if tid ≥ 0 ∧ t = 0 then (-(env.errno.EINVAL : Int), proc_put proc g.2)
    else if t ≠ 0 ∧ env.process t ≠ proc then
      (-(env.errno.EINVAL : Int), threads_put t (proc_put proc g.2))
    else
      let p := threads_sigpost env proc t signal g.2
      (p.1, hal_cpuReschedule (threads_put t (proc_put proc p.2)))

/-- The events a call added, given the state before and after it. -/
def emitted (before after : Kernel) : List Event :=
  after.trace.drop before.trace.length

/-- The deliveries and reschedule requests among some events, in their order. -/
def deliveries (l : List Event) : List Event :=
  l.filter fun ev =>
    match ev with
    | .sigpost _ _ _ => true
    | .reschedule => true
    | _ => false

/-! ## Suspending until a signal -/

/-- One call of `proc_threadSleep`: its timeout and the signal mask the thread
carries while asleep. -/
structure Sleep where
  timeout : Nat
  sigmask : Nat
  deriving DecidableEq, Repr

/-- The loop `while (ret != -EINTR) ret = proc_threadSleep(1ULL << 52);` of
`syscalls_signalSuspend`. The values `proc_threadSleep` returns, in order, are
given as a list; `none` when the list is used up with the thread still in the
loop. -/
def suspendLoop (e : Errno) (t : Thread) : Int → List Int → List Sleep → Option (Int × List Sleep)
  | ret, [], log => if ret ≠ -(e.EINTR : Int) then none else some (ret, log)
  | ret, r :: rest, log =>
    if ret ≠ -(e.EINTR : Int) then suspendLoop e t r rest (log ++ [⟨2 ^ 52, t.sigmask⟩])
    else some (ret, log)

/-- The function `syscalls_signalSuspend(ustack)` run by thread `t`: the value
returned, the thread afterwards and the sleeps performed. -/
def syscalls_signalSuspend (e : Errno) (sleeps : List Int) (ustack : ArgBuf) (t : Thread) :
    Option (Int × Thread × List Sleep) :=
  let mask := getUnsigned ustack 0
  let old := t.sigmask
  let t1 := { t with sigmask := mask }
  match suspendLoop e t1 0 sleeps [] with
  | none => none
  | some (ret, log) => some (ret, { t1 with sigmask := old }, log)

/-! ## Memory mapping -/

/-- Constants of `include/mman.h` and `include/fcntl.h` and the `vm_*` and
`file_*` collaborators of `syscalls_memMap`, none among the sources. Object and
file pointers are `0` for `NULL`. -/
structure VmEnv where
  /-- Error numbers. -/
  errno : Errno
  MAP_ANONYMOUS : Nat
  FD_PHYSMEM : Int
  FD_CONTIGUOUS : Int
  PROT_USER : Nat
  /-- The call `vm_objectContiguous(&o, size)`: value returned and `o`. -/
  vm_objectContiguous : Int → Int × Int
  /-- The call `file_get(proc_current()->process, fd)`. -/
  file_get : Int → Int
  /-- The call `vm_objectGet(&o, file)`: value returned and `o`. -/
  vm_objectGet : Int → Int × Int
  /-- The call `vm_mmap(map, vaddr, NULL, size, prot, o, offs, flags)`: the
  address mapped, `0` (`NULL`) on failure. -/
  vm_mmap : Int → Int → Nat → Int → Int → Int → Int

/-- First half of `syscalls_memMap`: choosing the backing object `o`, or
leaving early with an error. -/
def memMapObject (env : VmEnv) (size : Int) (flags fd : Int) : Except Int Int :=
  if toUnsigned flags &&& env.MAP_ANONYMOUS ≠ 0 then .ok 0
  else if fd = env.FD_PHYSMEM then .ok (-1)
  else if fd = env.FD_CONTIGUOUS then
    let r := env.vm_objectContiguous size
    if r.1 < 0 then .error r.1 else .ok r.2
  else if env.file_get fd ≠ 0 then
    let r := env.vm_objectGet (env.file_get fd)
    if r.1 ≠ EOK then .error r.1 else .ok r.2
  else .error (-(env.errno.EBADF : Int))

/-- The function `syscalls_memMap(ustack)`: the value returned and user memory
afterwards. The local `err` is carried along to show where it is assigned;
`file_put` and `vm_objectPut` only drop references and change nothing that is
returned or stored. -/
def syscalls_memMap (env : VmEnv) (ustack : ArgBuf) (mem : Mem) : Int × Mem :=
  let vaddr := getWord ustack 0
  let size := getWord ustack 1
  let prot := getInt ustack 2
  let flags := getInt ustack 3
  let fd := getInt ustack 4
  let offs := getWord ustack 5
  match memMapObject env size flags fd with
  | .error err => (err, mem)
  | .ok o =>
    let a := env.vm_mmap (mem vaddr) size (env.PROT_USER ||| toUnsigned prot) o
      (if o = 0 then -1 else offs) flags
    let mem1 := mem.write vaddr a
    let r : Mem × Int :=
      if a = 0 then (mem1.write vaddr (-1), -(env.errno.ENOMEM : Int)) else (mem1, EOK)
    (EOK, r.1)

/-! ## Creating mutexes and condition variables -/

/-- The function `syscalls_mutexCreate(ustack)`; `proc_mutexCreate` is the
collaborator of `proc/mutex.c` acting on kernel state `σ`. The value returned,
the kernel state and user memory afterwards. -/
def syscalls_mutexCreate {σ : Type} (proc_mutexCreate : σ → Int × σ) (ustack : ArgBuf)
    (s : σ) (mem : Mem) : Int × σ × Mem :=
  let h := getWord ustack 0
  let r := proc_mutexCreate s
  let res := r.1
  if res < 0 then (res, r.2, mem)
  else (EOK, r.2, mem.write h (toUnsigned res))

/-- The function `syscalls_condCreate(ustack)`; `proc_condCreate` is the
collaborator of `proc/cond.c` acting on kernel state `σ`. -/
def syscalls_condCreate {σ : Type} (proc_condCreate : σ → Int × σ) (ustack : ArgBuf)
    (s : σ) (mem : Mem) : Int × σ × Mem :=
  let h := getWord ustack 0
  let r := proc_condCreate s
  let res := r.1
  if res < 0 then (res, r.2, mem)
  else (EOK, r.2, mem.write h (toUnsigned res))

/-! ## Thread priority -/

/-- The function `syscalls_priority(ustack)` run by thread `thread`
(`thread = proc_current()`): the value returned and the thread afterwards. -/
def syscalls_priority (e : Errno) (ustack : ArgBuf) (thread : Thread) : Int × Thread :=
  let priority := getInt ustack 0
  if priority = -1 then (thread.priority, thread)
  else if priority ≥ 0 ∧ priority ≤ 7 then (priority, { thread with priority := priority })
  else (-(e.EINVAL : Int), thread)

/-! ## File read and write -/

/-- The four arguments of a call of `proc_fileRead` or `proc_fileWrite`. -/
structure FileArgs where
  fildes : Int
  buf : Int
  nbyte : Int
  offset : Int
  deriving DecidableEq, Repr

/-- The function `syscalls_fileRead(ustack)` up to its call of `proc_fileRead`:
the arguments of that call and user memory at that point. The local `offset` is
declared without a value and the fourth decoding is
`GETFROMSTACK(ustack, off_t, *offset, 3)`, a store of the decoded `off_t`
through `offset`; `stale` is what the local holds on entry. -/
def syscalls_fileRead (stale : Int) (ustack : ArgBuf) (mem : Mem) : FileArgs × Mem :=
  let offset := stale
  let fildes := getInt ustack 0
  let buf := getWord ustack 1
  let nbyte := getWord ustack 2
  let mem1 := mem.write offset (getWord ustack 3)
  ({ fildes := fildes, buf := buf, nbyte := nbyte, offset := offset }, mem1)

/-- The function `syscalls_fileWrite(ustack)` up to its call of
`proc_fileWrite`; the same text as `syscalls_fileRead`. -/
def syscalls_fileWrite (stale : Int) (ustack : ArgBuf) (mem : Mem) : FileArgs × Mem :=
  let offset := stale
  let fildes := getInt ustack 0
  let buf := getWord ustack 1
  let nbyte := getWord ustack 2
  let mem1 := mem.write offset (getWord ustack 3)
  ({ fildes := fildes, buf := buf, nbyte := nbyte, offset := offset }, mem1)

/-- The function `syscalls_fileSeek(ustack)` up to its call of `proc_fileSeek`:
descriptor, offset pointer and `whence` of that call, and user memory at that
point. Here the decoding is `GETFROMSTACK(ustack, off_t *, offset, 1)`, an
assignment to the local, so what the local held on entry plays no part. -/
def syscalls_fileSeek (ustack : ArgBuf) (mem : Mem) : (Int × Int × Int) × Mem :=
  let fildes := getInt ustack 0
  let offset := getWord ustack 1
  let whence := getInt ustack 2
  ((fildes, offset, whence), mem)

/-! ## Programs of the system page -/

/-- An entry of `syspage->progs` (`syspage_program_t`, from the HAL headers, not
among the sources): `start`, `end` and `cmdline`. -/
structure Program where
  start : Int
  end_ : Int
  cmdline : List Nat
  deriving DecidableEq, Repr

/-- The system page as `syscalls_syspageprog` reads it: the count `progssz` and
what lies at each index of `progs`, inside the table or not. -/
structure Syspage where
  progssz : Int
  progs : Int → Program

/-- The object a `syspageprog_t *` points to (`include/sysinfo.h`, not among the
sources). -/
structure SyspageProg where
  addr : Int
  size : Int
  name : List Nat
  deriving DecidableEq, Repr

/-- What a call of `syscalls_syspageprog` leaves: the value returned, the object
behind `prog`, and the indices at which `syspage->progs` was read, one per
subscript evaluated. -/
structure ProgResult where
  ret : Int
  prog : SyspageProg
  reads : List Int

/-- The function `syscalls_syspageprog(ustack)`; `prog` is the object behind the
pointer decoded at position 0 and `addrBits` the width of the address type in
which `end - start` is computed. The copy `hal_memcpy(prog->name, cmdline,
sizeof(cmdline))` overwrites the first `sizeof(cmdline)` bytes of the name. -/
def syscalls_syspageprog (e : Errno) (addrBits : Nat) (syspage : Syspage) (ustack : ArgBuf)
    (prog : SyspageProg) : ProgResult :=
  let i := getInt ustack 1
  if i < 0 then ⟨syspage.progssz, prog, []⟩
  else if i ≥ syspage.progssz then ⟨-(e.EINVAL : Int), prog, []⟩
  else
    let prog1 := { prog with addr := (syspage.progs i).start }
    let prog2 := { prog1 with
      size := ((syspage.progs i).end_ - (syspage.progs i).start) % 2 ^ addrBits }
    let prog3 := { prog2 with
      name := (syspage.progs i).cmdline ++ prog2.name.drop (syspage.progs i).cmdline.length }
    ⟨EOK, prog3, [i, i, i, i]⟩

/-! ## Example data -/

/-- Error numbers used in the examples. -/
def exampleErrno : Errno := { EINVAL := 22, EINTR := 4, ENOMEM := 12, EBADF := 9 }

/-- A thread with nothing pending. -/
def exampleThread : Thread :=
  { sigmask := 5, priority := 4, exit := false, stop := false,
    process := { sigmask := 0, sigtrampoline := 0 } }

/-- A dispatcher over a two-entry table: entry 0 returns its first argument,
entry 1 returns `-7` after asking the thread to stop; a stopped thread is
resumed with the request cleared. -/
def exampleDispatch : DispatchEnv Thread :=
  { errno := exampleErrno
    sizeBits := 32
    syscalls := [fun u s => (u 0, s), fun _ s => (-7, { s with stop := true })]
    exit := Thread.exit
    stop := Thread.stop
    proc_threadStop := fun s => { s with stop := false } }

/-- An argument buffer holding `9, 3, 1` and zeros after them. -/
def exampleArgs : ArgBuf := fun k => if k = 0 then 9 else if k = 1 then 3 else if k = 2 then 1 else 0

/-- An argument buffer holding `3, 9` and zeros after them. -/
def exampleMaskArgs : ArgBuf := fun k => if k = 0 then 3 else if k = 1 then 9 else 0

/-- User memory holding zero everywhere. -/
def exampleMem : Mem := fun _ => 0

/-- A memory subsystem that is out of address space: `vm_mmap` returns `NULL`
whatever it is asked for. The constants stand for those of the missing
headers. -/
def exampleVm : VmEnv :=
  { errno := exampleErrno
    MAP_ANONYMOUS := 32
    FD_PHYSMEM := -1
    FD_CONTIGUOUS := -2
    PROT_USER := 8
    vm_objectContiguous := fun _ => (0, 1)
    file_get := fun _ => 0
    vm_objectGet := fun _ => (0, 1)
    vm_mmap := fun _ _ _ _ _ _ => 0 }

/-- Arguments of an anonymous mapping: `vaddr = 100`, `size = 4096`,
`prot = 3`, `flags = MAP_ANONYMOUS`, `fd = -1`, `offs = 0`. -/
def exampleMapArgs : ArgBuf := fun k =>
  if k = 0 then 100 else if k = 1 then 4096 else if k = 2 then 3 else if k = 3 then 32
  else if k = 4 then -1 else 0

/-- A handle table whose next free handle is the state: creation returns it and
moves on. -/
def exampleCreate : Nat → Int × Nat := fun s => (s, s + 1)

/-- A handle table that is full: creation fails with `-ENOMEM`. -/
def exampleCreateFull : Nat → Int × Nat := fun s => (-12, s)

/-- Lookups that know process 1 at address 100 with thread 7 at address 200;
every delivery answers `0`. -/
def examplePost : PostEnv :=
  { errno := exampleErrno
    findProc := fun pid => if pid = 1 then 100 else 0
    findThread := fun tid => if tid = 7 then 200 else 0
    process := fun _ => 100
    sigpostResult := fun _ _ _ => 0 }

/-- A kernel with every reference count at 1 and no events yet. -/
def exampleKernel : Kernel := { procRefs := fun _ => 1, threadRefs := fun _ => 1, trace := [] }

/-- Arguments `pid = 1, tid = 7, signal = 5`. -/
def examplePostArgs : ArgBuf := fun k => if k = 0 then 1 else if k = 1 then 7 else if k = 2 then 5 else 0

/-- A system page with two programs. -/
def exampleSyspage : Syspage :=
  { progssz := 2
    progs := fun i =>
      if i = 0 then { start := 4096, end_ := 8192, cmdline := [97, 0] }
      else if i = 1 then { start := 8192, end_ := 8704, cmdline := [98, 0] }
      else { start := 0, end_ := 0, cmdline := [] } }

/-- An empty `syspageprog_t`. -/
def exampleProg : SyspageProg := { addr := 0, size := 0, name := [0, 0, 0, 0] }

/-- Arguments `prog = 300, i = 1`. -/
def exampleProgArgs : ArgBuf := fun k => if k = 0 then 300 else if k = 1 then 1 else 0

/-- Arguments `fildes = 3, buf = 500, nbyte = 16` and the offset `64`. -/
def exampleFileArgs : ArgBuf := fun k =>
  if k = 0 then 3 else if k = 1 then 500 else if k = 2 then 16 else if k = 3 then 64 else 0

/-! ## Dispatcher: properties -/

theorem toSizeT_of_nonneg (bits : Nat) (n : Int) (h0 : 0 ≤ n) (h1 : n < 2 ^ bits) :
    toSizeT bits n = n.toNat := by
  unfold toSizeT
  rw [Int.emod_eq_of_lt h0 h1]

theorem toSizeT_of_neg (bits : Nat) (n : Int) (h0 : n < 0) (h1 : -(2 ^ bits : Int) ≤ n) :
    ((toSizeT bits n : Nat) : Int) = n + 2 ^ bits := by
  unfold toSizeT
  have h2 : (n + 2 ^ bits) % (2 ^ bits : Int) = n + 2 ^ bits :=
    Int.emod_eq_of_lt (by linarith) (by linarith)
  rw [Int.add_emod_self] at h2
  rw [h2, Int.toNat_of_nonneg (by linarith)]

theorem deferredLoop_returned {σ : Type} (env : DispatchEnv σ) (retval : Int) (fuel : Nat) :
    ∀ (s : σ) (v : Int) (s' : σ), deferredLoop env retval fuel s = .returned v s' →
      v = retval ∧ env.exit s' = false ∧ env.stop s' = false := by
  induction fuel with
  | zero =>
    intro s v s' h
    unfold deferredLoop at h
    by_cases hc : (env.exit s || env.stop s) = true
    · rw [if_pos hc] at h
      split at h <;> cases h
    · rw [if_neg hc] at h
      cases h
      simpa using hc
  | succ fuel ih =>
    intro s v s' h
    unfold deferredLoop at h
    by_cases hc : (env.exit s || env.stop s) = true
    · rw [if_pos hc] at h
      split at h
      · cases h
      · split at h
        · exact ih _ _ _ h
        · exact ih _ _ _ h
    · rw [if_neg hc] at h
      cases h
      simpa using hc

theorem deferredLoop_clear {σ : Type} (env : DispatchEnv σ) (retval : Int) (fuel : Nat) (s : σ)
    (he : env.exit s = false) (hs : env.stop s = false) :
    deferredLoop env retval fuel s = .returned retval s := by
  cases fuel <;> simp [deferredLoop, he, hs]

theorem in_range_dispatch_eq {σ : Type} (env : DispatchEnv σ) (fuel : Nat) (n : Int)
    (ustack : ArgBuf) (s : σ)
    (hlen : (env.syscalls.length : Int) + 2 ^ 31 ≤ 2 ^ env.sizeBits)
    (hin : 0 ≤ n ∧ n < env.syscalls.length) :
    ∃ handler, env.syscalls.get? n.toNat = some handler ∧
      syscalls_dispatch env fuel n ustack s =
        ⟨deferredLoop env (handler ustack s).1 fuel (handler ustack s).2, [(n.toNat, ustack)]⟩ := by
  obtain ⟨h0, h1⟩ := hin
  have hlt : n.toNat < env.syscalls.length := by omega
  have hsz : toSizeT env.sizeBits n = n.toNat :=
    toSizeT_of_nonneg _ _ h0 (by linarith [show (0 : Int) < 2 ^ 31 by norm_num])
  refine ⟨env.syscalls.get ⟨n.toNat, hlt⟩, List.get?_eq_get hlt, ?_⟩
  unfold syscalls_dispatch
  rw [hsz, if_neg (by omega), if_pos h0, List.get?_eq_get hlt]

/-- C1: for a C `int` `n` that is negative or at least the length of the
`syscalls` table (a table that fits the address space), `syscalls_dispatch`
returns `-EINVAL`, leaves the state as it was and invokes no handler. -/
theorem dispatch_out_of_range {σ : Type} (env : DispatchEnv σ) (fuel : Nat) (n : Int)
    (ustack : ArgBuf) (s : σ)
    (hint : -2 ^ 31 ≤ n ∧ n < 2 ^ 31)
    (hlen : (env.syscalls.length : Int) + 2 ^ 31 ≤ 2 ^ env.sizeBits)
    (hn : n < 0 ∨ (env.syscalls.length : Int) ≤ n) :
    syscalls_dispatch env fuel n ustack s = ⟨.returned (-(env.errno.EINVAL : Int)) s, []⟩ := by
  obtain ⟨hlo, hhi⟩ := hint
  have hge : toSizeT env.sizeBits n ≥ env.syscalls.length := by
    by_cases hneg : n < 0
    · have h := toSizeT_of_neg env.sizeBits n hneg (by linarith [Int.natCast_nonneg env.syscalls.length])
      have : (env.syscalls.length : Int) ≤ (toSizeT env.sizeBits n : Int) := by rw [h]; linarith
      exact_mod_cast this
    · have h0 : 0 ≤ n := not_lt.mp hneg
      have hle : (env.syscalls.length : Int) ≤ n := by
        rcases hn with h | h
        · exact absurd h hneg
        · exact h
      rw [toSizeT_of_nonneg _ _ h0 (by linarith [Int.natCast_nonneg env.syscalls.length])]
      omega
  unfold syscalls_dispatch
  rw [if_pos hge]

/-- Witness of C1: number 2 and number -1 on the two-entry example table. -/
theorem dispatch_out_of_range_witness :
    syscalls_dispatch exampleDispatch 3 2 exampleArgs exampleThread
        = ⟨.returned (-22) exampleThread, []⟩ ∧
      syscalls_dispatch exampleDispatch 3 (-1) exampleArgs exampleThread
        = ⟨.returned (-22) exampleThread, []⟩ :=
  ⟨dispatch_out_of_range exampleDispatch 3 2 exampleArgs exampleThread
      (by decide) (by decide) (by decide),
    dispatch_out_of_range exampleDispatch 3 (-1) exampleArgs exampleThread
      (by decide) (by decide) (by decide)⟩

/-- C2, as stated, fails: with the exit flag pending, an out-of-range number
makes `syscalls_dispatch` return `-EINVAL` to the caller with the flag still
set. -/
theorem dispatch_returns_with_exit_pending :
    (syscalls_dispatch exampleDispatch 3 2 exampleArgs { exampleThread with exit := true }).outcome
        = .returned (-22) { exampleThread with exit := true } ∧
      exampleDispatch.exit { exampleThread with exit := true } = true := by
  constructor
  · rfl
  · rfl

/-- C2, amended: for every number inside the table and every argument buffer,
whenever `syscalls_dispatch` returns, the exit and stop flags of the calling
thread are both clear in the state it returns in. -/
theorem dispatch_returns_flags_clear {σ : Type} (env : DispatchEnv σ) (fuel : Nat) (n : Int)
    (ustack : ArgBuf) (s : σ) (v : Int) (s' : σ)
    (hlen : (env.syscalls.length : Int) + 2 ^ 31 ≤ 2 ^ env.sizeBits)
    (hin : 0 ≤ n ∧ n < env.syscalls.length)
    (hret : (syscalls_dispatch env fuel n ustack s).outcome = .returned v s') :
    env.exit s' = false ∧ env.stop s' = false := by
  obtain ⟨handler, _, heq⟩ := in_range_dispatch_eq env fuel n ustack s hlen hin
  rw [heq] at hret
  exact (deferredLoop_returned env _ fuel _ _ _ hret).2

/-- Witness of C2: entry 1 of the example table asks the thread to stop; the
dispatcher returns only after the stop has been taken and cleared. -/
theorem dispatch_returns_flags_clear_witness :
    (syscalls_dispatch exampleDispatch 3 1 exampleArgs exampleThread).outcome
        = .returned (-7) exampleThread ∧
      exampleDispatch.exit exampleThread = false ∧ exampleDispatch.stop exampleThread = false :=
  ⟨rfl, dispatch_returns_flags_clear exampleDispatch 3 1 exampleArgs exampleThread (-7)
    exampleThread (by decide) (by decide) rfl⟩

/-- C3: for every `n` inside the table, `syscalls_dispatch` invokes the handler
at index `n`, once, with the argument buffer it was given; the dispatch ends as
the deferred loop ends when started from the handler's state, so a value that
is returned is the handler's result, and it is returned at once when the
handler leaves neither flag set. -/
theorem dispatch_in_range {σ : Type} (env : DispatchEnv σ) (fuel : Nat) (n : Int)
    (ustack : ArgBuf) (s : σ)
    (hlen : (env.syscalls.length : Int) + 2 ^ 31 ≤ 2 ^ env.sizeBits)
    (hin : 0 ≤ n ∧ n < env.syscalls.length) :
    ∃ handler, env.syscalls.get? n.toNat = some handler ∧
      (syscalls_dispatch env fuel n ustack s).calls = [(n.toNat, ustack)] ∧
      (syscalls_dispatch env fuel n ustack s).outcome
        = deferredLoop env (handler ustack s).1 fuel (handler ustack s).2 ∧
      (∀ v s', (syscalls_dispatch env fuel n ustack s).outcome = .returned v s' →
        v = (handler ustack s).1) ∧
      (env.exit (handler ustack s).2 = false → env.stop (handler ustack s).2 = false →
        (syscalls_dispatch env fuel n ustack s).outcome
          = .returned (handler ustack s).1 (handler ustack s).2) := by
  obtain ⟨handler, hget, heq⟩ := in_range_dispatch_eq env fuel n ustack s hlen hin
  refine ⟨handler, hget, ?_, ?_, ?_, ?_⟩
  · rw [heq]
  · rw [heq]
  · intro v s' h
    rw [heq] at h
    exact (deferredLoop_returned env _ fuel _ _ _ h).1
  · intro he hs
    rw [heq]
    exact deferredLoop_clear env _ fuel _ he hs

/-- Witness of C3: number 0 on the example table. -/
theorem dispatch_in_range_witness :
    ∃ handler, exampleDispatch.syscalls.get? (0 : Int).toNat = some handler ∧
      (syscalls_dispatch exampleDispatch 3 0 exampleArgs exampleThread).calls
        = [((0 : Int).toNat, exampleArgs)] ∧
      (syscalls_dispatch exampleDispatch 3 0 exampleArgs exampleThread).outcome
        = deferredLoop exampleDispatch (handler exampleArgs exampleThread).1 3
            (handler exampleArgs exampleThread).2 ∧
      (∀ v s', (syscalls_dispatch exampleDispatch 3 0 exampleArgs exampleThread).outcome
          = .returned v s' → v = (handler exampleArgs exampleThread).1) ∧
      (exampleDispatch.exit (handler exampleArgs exampleThread).2 = false →
        exampleDispatch.stop (handler exampleArgs exampleThread).2 = false →
        (syscalls_dispatch exampleDispatch 3 0 exampleArgs exampleThread).outcome
          = .returned (handler exampleArgs exampleThread).1
              (handler exampleArgs exampleThread).2) :=
  dispatch_in_range exampleDispatch 3 0 exampleArgs exampleThread (by decide) (by decide)

/-! ## Signal mask and trampoline: properties -/

theorem toUnsigned_natCast (v : Nat) (h : v < 2 ^ 32) : toUnsigned (v : Int) = v := by
  unfold toUnsigned
  have h1 : ((v : Int)) % 2 ^ 32 = v := Int.emod_eq_of_lt (by positivity) (by exact_mod_cast h)
  rw [h1, Int.toNat_natCast]

theorem toUnsigned_lt (v : Int) : toUnsigned v < 2 ^ 32 := by
  unfold toUnsigned
  have h1 : v % 2 ^ 32 < 2 ^ 32 := Int.emod_lt_of_pos v (by norm_num)
  have h0 : 0 ≤ v % 2 ^ 32 := Int.emod_nonneg v (by norm_num)
  omega

theorem notUnsigned_testBit (v i : Nat) :
    (notUnsigned v).testBit i = (decide (i < 32) && !v.testBit i) := by
  unfold notUnsigned
  rw [Nat.testBit_xor, Nat.testBit_two_pow_sub_one, Nat.testBit_mod_two_pow]
  by_cases h : i < 32 <;> simp [h]

theorem notUnsigned_eq_sub (v : Nat) (h : v < 2 ^ 32) : notUnsigned v = 2 ^ 32 - 1 - v := by
  apply Nat.eq_of_testBit_eq
  intro i
  have h1 : 2 ^ 32 - 1 - v = 2 ^ 32 - (v + 1) := by omega
  rw [h1, notUnsigned_testBit, Nat.testBit_two_pow_sub_succ h]

theorem merge_testBit (m0 m1 s : Nat) (h0 : m0 < 2 ^ 32) (hs : s < 2 ^ 32) (i : Nat) :
    ((m1 &&& s) ||| (m0 &&& notUnsigned s)).testBit i
      = if s.testBit i then m1.testBit i else m0.testBit i := by
  rw [Nat.testBit_lor, Nat.testBit_land, Nat.testBit_land, notUnsigned_testBit]
  by_cases h : i < 32
  · cases s.testBit i <;> simp [h]
  · have hpow : 2 ^ 32 ≤ 2 ^ i := Nat.pow_le_pow_right (by norm_num) (not_lt.mp h)
    have hsi : s.testBit i = false := Nat.testBit_lt_two_pow (lt_of_lt_of_le hs hpow)
    have hmi : m0.testBit i = false := Nat.testBit_lt_two_pow (lt_of_lt_of_le h0 hpow)
    simp [hsi, hmi]

/-- C4: for 32-bit masks `m0` (the thread's mask before), `m1` and selector `s`,
`syscalls_signalMask(m1, s)` returns `m0` and leaves the thread with mask
`(m1 & s) | (m0 & ~s)` and nothing else changed: every bit inside `s` takes the
value it has in `m1`, every bit outside `s` keeps the value it has in `m0`. -/
theorem signalMask_merge (ustack : ArgBuf) (t : Thread) (m0 m1 s : Nat)
    (h0 : m0 < 2 ^ 32) (h1 : m1 < 2 ^ 32) (hs : s < 2 ^ 32)
    (ht : t.sigmask = m0) (ha0 : ustack 0 = m1) (ha1 : ustack 1 = s) :
    (syscalls_signalMask ustack t).1 = m0 ∧
      (syscalls_signalMask ustack t).2
        = { t with sigmask := (m1 &&& s) ||| (m0 &&& (2 ^ 32 - 1 - s)) } ∧
      ∀ i, (syscalls_signalMask ustack t).2.sigmask.testBit i
        = if s.testBit i then m1.testBit i else m0.testBit i := by
  have e0 : getUnsigned ustack 0 = m1 := by
    unfold getUnsigned
    rw [ha0, toUnsigned_natCast m1 h1]
  have e1 : getUnsigned ustack 1 = s := by
    unfold getUnsigned
    rw [ha1, toUnsigned_natCast s hs]
  have hres : syscalls_signalMask ustack t
      = (m0, { t with sigmask := (m1 &&& s) ||| (m0 &&& notUnsigned s) }) := by
    unfold syscalls_signalMask
    simp only [e0, e1, ht]
  refine ⟨by rw [hres], ?_, ?_⟩
  · rw [hres, notUnsigned_eq_sub s hs]
  · intro i
    rw [hres]
    exact merge_testBit m0 m1 s h0 hs i

/-- Witness of C4: mask 5 before, new mask 3 selected by 9; the call returns 5
and leaves mask 5 (bit 0 taken from the new mask, bit 2 kept). -/
theorem signalMask_merge_witness :
    (syscalls_signalMask exampleMaskArgs exampleThread).1 = 5 ∧
      (syscalls_signalMask exampleMaskArgs exampleThread).2
        = { exampleThread with sigmask := (3 &&& 9) ||| (5 &&& (2 ^ 32 - 1 - 9)) } ∧
      ∀ i, (syscalls_signalMask exampleMaskArgs exampleThread).2.sigmask.testBit i
        = if (9 : Nat).testBit i then (3 : Nat).testBit i else (5 : Nat).testBit i :=
  signalMask_merge exampleMaskArgs exampleThread 5 3 9 (by decide) (by decide) (by decide)
    rfl rfl rfl

/-- C5, as stated, fails: a thread with mask 0 calls
`syscalls_signalHandle(9, 3, 1)`; the claim puts its mask at
`(3 & 1) | (0 & ~1) = 1`, the code leaves the thread's mask at 0. -/
theorem signalHandle_keeps_thread_mask :
    (syscalls_signalHandle exampleArgs { exampleThread with sigmask := 0 }).sigmask = 0 ∧
      (getUnsigned exampleArgs 1 &&& getUnsigned exampleArgs 2)
        ||| (0 &&& notUnsigned (getUnsigned exampleArgs 2)) = 1 := by
  constructor
  · rfl
  · decide

/-- C5, amended: `syscalls_signalHandle(trampoline, mask, maskedBits)` sets the
trampoline of the calling thread's process to the given address and the signal
mask of that process to `(mask & maskedBits) | (oldMask & ~maskedBits)`, where
`oldMask` is the process's mask before the call, so the process's mask bits
outside `maskedBits` are untouched; the thread's own mask and its other fields
stay as they were. -/
theorem signalHandle_process_merge (ustack : ArgBuf) (thread : Thread) (m0 m1 s : Nat)
    (h0 : m0 < 2 ^ 32) (h1 : m1 < 2 ^ 32) (hs : s < 2 ^ 32)
    (ht : thread.process.sigmask = m0) (ha1 : ustack 1 = m1) (ha2 : ustack 2 = s) :
    syscalls_signalHandle ustack thread
        = { thread with process :=
            { sigmask := (m1 &&& s) ||| (m0 &&& (2 ^ 32 - 1 - s)), sigtrampoline := ustack 0 } } ∧
      (∀ i, (syscalls_signalHandle ustack thread).process.sigmask.testBit i
        = if s.testBit i then m1.testBit i else m0.testBit i) ∧
      (syscalls_signalHandle ustack thread).sigmask = thread.sigmask := by
  have e1 : getUnsigned ustack 1 = m1 := by
    unfold getUnsigned
    rw [ha1, toUnsigned_natCast m1 h1]
  have e2 : getUnsigned ustack 2 = s := by
    unfold getUnsigned
    rw [ha2, toUnsigned_natCast s hs]
  have hres : syscalls_signalHandle ustack thread
      = { thread with process :=
          { sigmask := (m1 &&& s) ||| (m0 &&& notUnsigned s), sigtrampoline := ustack 0 } } := by
    unfold syscalls_signalHandle
    simp only [e1, e2, ht, getWord]
  refine ⟨?_, ?_, ?_⟩
  · rw [hres, notUnsigned_eq_sub s hs]
  · intro i
    rw [hres]
    exact merge_testBit m0 m1 s h0 hs i
  · rw [hres]

/-- Witness of C5: a process with mask 6 and the call
`syscalls_signalHandle(9, 3, 1)`. -/
theorem signalHandle_process_merge_witness :
    syscalls_signalHandle exampleArgs { exampleThread with process := ⟨6, 0⟩ }
        = { exampleThread with process :=
            { sigmask := (3 &&& 1) ||| (6 &&& (2 ^ 32 - 1 - 1)), sigtrampoline := 9 } } ∧
      (∀ i, (syscalls_signalHandle exampleArgs
            { exampleThread with process := ⟨6, 0⟩ }).process.sigmask.testBit i
        = if (1 : Nat).testBit i then (3 : Nat).testBit i else (6 : Nat).testBit i) ∧
      (syscalls_signalHandle exampleArgs { exampleThread with process := ⟨6, 0⟩ }).sigmask
        = exampleThread.sigmask :=
  signalHandle_process_merge exampleArgs { exampleThread with process := ⟨6, 0⟩ } 6 3 1
    (by decide) (by decide) (by decide) rfl rfl rfl

/-! ## Posting a signal: properties -/

theorem bump_cancel (refs : Int → Int) (x : Int) : bump (bump refs x 1) x (-1) = refs := by
  funext y
  unfold bump
  by_cases h : y = x <;> simp [h]

theorem emitted_append (k k' : Kernel) (l : List Event) (h : k'.trace = k.trace ++ l) :
    emitted k k' = l := by
  unfold emitted
  rw [h, List.drop_left]

/-- Path by path, what `syscalls_signalPost` returns and the state it leaves. -/
theorem signalPost_run (env : PostEnv) (ustack : ArgBuf) (k : Kernel) :
    syscalls_signalPost env ustack k =
      if env.findProc (getInt ustack 0) = 0 then (-(env.errno.EINVAL : Int), k)
      else if getInt ustack 1 ≥ 0 then
        if env.findThread (getInt ustack 1) = 0 then
          (-(env.errno.EINVAL : Int),
            { k with trace := k.trace ++ [.procGet (env.findProc (getInt ustack 0)),
                .procPut (env.findProc (getInt ustack 0))] })
        else if env.process (env.findThread (getInt ustack 1)) ≠ env.findProc (getInt ustack 0) then
          (-(env.errno.EINVAL : Int),
            { k with trace := k.trace ++ [.procGet (env.findProc (getInt ustack 0)),
                .threadGet (env.findThread (getInt ustack 1)),
                .procPut (env.findProc (getInt ustack 0)),
                .threadPut (env.findThread (getInt ustack 1))] })
        else
          (env.sigpostResult (env.findProc (getInt ustack 0)) (env.findThread (getInt ustack 1))
              (getInt ustack 2),
            { k with trace := k.trace ++ [.procGet (env.findProc (getInt ustack 0)),
                .threadGet (env.findThread (getInt ustack 1)),
                .sigpost (env.findProc (getInt ustack 0)) (env.findThread (getInt ustack 1))
                  (getInt ustack 2),
                .procPut (env.findProc (getInt ustack 0)),
                .threadPut (env.findThread (getInt ustack 1)),
                .reschedule] })
      else
        (env.sigpostResult (env.findProc (getInt ustack 0)) 0 (getInt ustack 2),
          { k with trace := k.trace ++ [.procGet (env.findProc (getInt ustack 0)),
              .sigpost (env.findProc (getInt ustack 0)) 0 (getInt ustack 2),
              .procPut (env.findProc (getInt ustack 0)),
              .reschedule] }) := by
  unfold syscalls_signalPost
  by_cases hp : env.findProc (getInt ustack 0) = 0
  · simp [proc_find, hp]
  · by_cases ht : getInt ustack 1 ≥ 0
    · by_cases hf : env.findThread (getInt ustack 1) = 0
      · simp [proc_find, threads_findThread, proc_put, hp, ht, hf, bump_cancel]
      · by_cases hq : env.process (env.findThread (getInt ustack 1)) = env.findProc (getInt ustack 0)
        · simp [proc_find, threads_findThread, proc_put, threads_put, threads_sigpost,
            hal_cpuReschedule, hp, ht, hf, hq, bump_cancel]
        · simp [proc_find, threads_findThread, proc_put, threads_put, hp, ht, hf, hq, bump_cancel]
    · simp [proc_find, proc_put, threads_put, threads_sigpost, hal_cpuReschedule, hp, ht,
        bump_cancel]

theorem emitted_self (k : Kernel) : emitted k k = [] := by
  unfold emitted
  simp

theorem emitted_with (k : Kernel) (l : List Event) :
    emitted k { k with trace := k.trace ++ l } = l :=
  emitted_append k _ l rfl

/-- C6: `syscalls_signalPost` returns `-EINVAL` with no delivery made exactly
when the pid finds no process, or the tid is non-negative and finds no thread,
or the tid is non-negative and the thread found belongs to another process than
the one found; in every other case it returns what `threads_sigpost` returned
for the process found and the thread found (no thread when the tid is
negative). -/
theorem signalPost_einval_iff (env : PostEnv) (ustack : ArgBuf) (k : Kernel) :
    (((syscalls_signalPost env ustack k).1 = -(env.errno.EINVAL : Int) ∧
        ∀ p t sig, Event.sigpost p t sig ∉ emitted k (syscalls_signalPost env ustack k).2)
      ↔ (env.findProc (getInt ustack 0) = 0 ∨
          (getInt ustack 1 ≥ 0 ∧ env.findThread (getInt ustack 1) = 0) ∨
          (getInt ustack 1 ≥ 0 ∧ env.findThread (getInt ustack 1) ≠ 0 ∧
            env.process (env.findThread (getInt ustack 1)) ≠ env.findProc (getInt ustack 0)))) ∧
      (¬ (env.findProc (getInt ustack 0) = 0 ∨
          (getInt ustack 1 ≥ 0 ∧ env.findThread (getInt ustack 1) = 0) ∨
          (getInt ustack 1 ≥ 0 ∧ env.findThread (getInt ustack 1) ≠ 0 ∧
            env.process (env.findThread (getInt ustack 1)) ≠ env.findProc (getInt ustack 0))) →
        (syscalls_signalPost env ustack k).1
          = env.sigpostResult (env.findProc (getInt ustack 0))
              (if getInt ustack 1 ≥ 0 then env.findThread (getInt ustack 1) else 0)
              (getInt ustack 2)) := by
  rw [signalPost_run]
  by_cases hp : env.findProc (getInt ustack 0) = 0
  · simp [hp, emitted_self]
  · by_cases ht : getInt ustack 1 ≥ 0
    · by_cases hf : env.findThread (getInt ustack 1) = 0
      · simp [hp, ht, hf, emitted_with]
      · by_cases hq : env.process (env.findThread (getInt ustack 1)) = env.findProc (getInt ustack 0)
        · simp [hp, ht, hf, hq, emitted_with]
        · simp [hp, ht, hf, hq, emitted_with]
    · simp [hp, ht, emitted_with]

/-- C7: on every path of `syscalls_signalPost` the reference count of every
process and of every thread is after the call what it was before; each object
is acquired at most once, and released as many times as it was acquired. -/
theorem signalPost_refs_balanced (env : PostEnv) (ustack : ArgBuf) (k : Kernel) :
    (syscalls_signalPost env ustack k).2.procRefs = k.procRefs ∧
      (syscalls_signalPost env ustack k).2.threadRefs = k.threadRefs ∧
      ∀ x, (emitted k (syscalls_signalPost env ustack k).2).count (.procPut x)
            = (emitted k (syscalls_signalPost env ustack k).2).count (.procGet x) ∧
          (emitted k (syscalls_signalPost env ustack k).2).count (.procGet x) ≤ 1 ∧
          (emitted k (syscalls_signalPost env ustack k).2).count (.threadPut x)
            = (emitted k (syscalls_signalPost env ustack k).2).count (.threadGet x) ∧
          (emitted k (syscalls_signalPost env ustack k).2).count (.threadGet x) ≤ 1 := by
  rw [signalPost_run]
  by_cases hp : env.findProc (getInt ustack 0) = 0
  · simp [hp, emitted_self]
  · by_cases ht : getInt ustack 1 ≥ 0
    · by_cases hf : env.findThread (getInt ustack 1) = 0
      · simp only [hp, ht, hf, if_true, if_false, emitted_with]
        refine ⟨trivial, trivial, fun x => ?_⟩
        by_cases hx : env.findProc (getInt ustack 0) = x <;> simp [List.count_cons, hx]
      · by_cases hq : env.process (env.findThread (getInt ustack 1)) = env.findProc (getInt ustack 0)
        · simp only [hp, ht, hf, hq, if_true, if_false, emitted_with, ne_eq, not_true]
          refine ⟨trivial, trivial, fun x => ?_⟩
          by_cases hx : env.findProc (getInt ustack 0) = x <;>
            by_cases hy : env.findThread (getInt ustack 1) = x <;>
              simp [List.count_cons, hx, hy]
        · simp only [hp, ht, hf, hq, if_true, if_false, emitted_with, ne_eq, not_false_eq_true]
          refine ⟨trivial, trivial, fun x => ?_⟩
          by_cases hx : env.findProc (getInt ustack 0) = x <;>
            by_cases hy : env.findThread (getInt ustack 1) = x <;>
              simp [List.count_cons, hx, hy]
    · simp only [hp, ht, if_true, if_false, emitted_with]
      refine ⟨trivial, trivial, fun x => ?_⟩
      by_cases hx : env.findProc (getInt ustack 0) = x <;> simp [List.count_cons, hx]

/-! ## Suspending until a signal: properties -/

theorem suspendLoop_done (e : Errno) (t : Thread) (outcomes : List Int) (log : List Sleep) :
    suspendLoop e t (-(e.EINTR : Int)) outcomes log = some (-(e.EINTR : Int), log) := by
  cases outcomes <;> simp [suspendLoop]

theorem suspendLoop_until (e : Errno) (t : Thread) (post : List Int) :
    ∀ (pre : List Int) (ret : Int) (log : List Sleep), ret ≠ -(e.EINTR : Int) →
      (∀ r ∈ pre, r ≠ -(e.EINTR : Int)) →
      suspendLoop e t ret (pre ++ -(e.EINTR : Int) :: post) log
        = some (-(e.EINTR : Int), log ++ List.replicate (pre.length + 1) ⟨2 ^ 52, t.sigmask⟩) := by
  intro pre
  induction pre with
  | nil =>
    intro ret log hret _
    simp only [List.nil_append, suspendLoop, if_pos hret, suspendLoop_done, List.length_nil,
      zero_add, List.replicate_one]
  | cons r rest ih =>
    intro ret log hret hpre
    have hr : r ≠ -(e.EINTR : Int) := hpre r (List.mem_cons_self r rest)
    have hrest : ∀ x ∈ rest, x ≠ -(e.EINTR : Int) :=
      fun x hx => hpre x (List.mem_cons_of_mem r hx)
    have hstep : suspendLoop e t ret ((r :: rest) ++ -(e.EINTR : Int) :: post) log
        = suspendLoop e t r (rest ++ -(e.EINTR : Int) :: post)
            (log ++ [⟨2 ^ 52, t.sigmask⟩]) := by
      rw [List.cons_append, suspendLoop, if_pos hret]
    rw [hstep, ih r _ hr hrest, List.append_assoc, List.length_cons]
    rfl

theorem suspendLoop_value (e : Errno) (t : Thread) :
    ∀ (outcomes : List Int) (ret : Int) (log : List Sleep) (v : Int) (log' : List Sleep),
      suspendLoop e t ret outcomes log = some (v, log') → v = -(e.EINTR : Int) := by
  intro outcomes
  induction outcomes with
  | nil =>
    intro ret log v log' h
    unfold suspendLoop at h
    by_cases hr : ret ≠ -(e.EINTR : Int)
    · rw [if_pos hr] at h
      cases h
    · rw [if_neg hr] at h
      cases h
      exact not_not.mp hr
  | cons r rest ih =>
    intro ret log v log' h
    unfold suspendLoop at h
    by_cases hr : ret ≠ -(e.EINTR : Int)
    · rw [if_pos hr] at h
      exact ih _ _ _ _ h
    · rw [if_neg hr] at h
      cases h
      exact not_not.mp hr

/-- C8: when the values `proc_threadSleep` returns are `pre`, none of them
`-EINTR`, then `-EINTR`, then anything, `syscalls_signalSuspend(mask)` sleeps
once per value of `pre` and once more, each time for `1 << 52` with the
supplied mask as the thread's mask, and returns `-EINTR` with the thread as it
was before the call, its mask included; and whatever the sleeps return, a value
it returns is `-EINTR` and the thread is as before. -/
theorem signalSuspend_interrupted (e : Errno) (ustack : ArgBuf) (t : Thread)
    (pre post : List Int) (hE : e.EINTR ≠ 0) (hpre : ∀ r ∈ pre, r ≠ -(e.EINTR : Int)) :
    syscalls_signalSuspend e (pre ++ -(e.EINTR : Int) :: post) ustack t
        = some (-(e.EINTR : Int), t,
            List.replicate (pre.length + 1) ⟨2 ^ 52, getUnsigned ustack 0⟩) ∧
      ∀ sleeps v t' log, syscalls_signalSuspend e sleeps ustack t = some (v, t', log) →
        v = -(e.EINTR : Int) ∧ t' = t := by
  constructor
  · unfold syscalls_signalSuspend
    have h0 : (0 : Int) ≠ -(e.EINTR : Int) := by
      intro h
      apply hE
      omega
    simp only [suspendLoop_until e _ post pre 0 [] h0 hpre, List.nil_append]
  · intro sleeps v t' log h
    unfold syscalls_signalSuspend at h
    simp only at h
    split at h
    · cases h
    · rename_i ret log1 heq
      cases h
      exact ⟨suspendLoop_value e _ _ _ _ _ _ heq, rfl⟩

/-- Witness of C8: the sleeps return `0`, `-110`, `-4` (`-EINTR`), `0`; three
sleeps are made under mask 9 and the thread gets its mask 5 back. -/
theorem signalSuspend_interrupted_witness :
    syscalls_signalSuspend exampleErrno ([0, -110] ++ -(exampleErrno.EINTR : Int) :: [0])
          exampleArgs exampleThread
        = some (-(exampleErrno.EINTR : Int), exampleThread,
            List.replicate (([0, -110] : List Int).length + 1) ⟨2 ^ 52, getUnsigned exampleArgs 0⟩) ∧
      ∀ sleeps v t' log,
        syscalls_signalSuspend exampleErrno sleeps exampleArgs exampleThread = some (v, t', log) →
          v = -(exampleErrno.EINTR : Int) ∧ t' = exampleThread :=
  signalSuspend_interrupted exampleErrno exampleArgs exampleThread [0, -110] [0]
    (by decide) (by decide)

/-! ## Memory mapping: properties -/

/-- Whenever `syscalls_memMap` gets as far as calling `vm_mmap`, it returns
`EOK`, whatever `vm_mmap` returned. -/
theorem memMap_returns_EOK_after_mmap (env : VmEnv) (ustack : ArgBuf) (mem : Mem) (o : Int)
    (ho : memMapObject env (getWord ustack 1) (getInt ustack 3) (getInt ustack 4) = .ok o) :
    (syscalls_memMap env ustack mem).1 = EOK := by
  unfold syscalls_memMap
  simp only [ho]

/-- C9, evaluated: an anonymous mapping that `vm_mmap` refuses (it returns
`NULL`). `syscalls_memMap` stores `(void *)-1` through `vaddr` and returns
`EOK`, not a negative value. -/
theorem memMap_failed_mmap_returns_EOK :
    exampleVm.vm_mmap (exampleMem 100) 4096 (exampleVm.PROT_USER ||| 3) 0 (-1) 32 = 0 ∧
      (syscalls_memMap exampleVm exampleMapArgs exampleMem).1 = EOK ∧
      (syscalls_memMap exampleVm exampleMapArgs exampleMem).2 100 = -1 := by
  refine ⟨rfl, ?_, ?_⟩
  · decide
  · decide

/-! ## Creating mutexes and condition variables: properties -/

theorem toUnsigned_of_nonneg (v : Int) (h0 : 0 ≤ v) (h1 : v < 2 ^ 31) :
    ((toUnsigned v : Nat) : Int) = v := by
  unfold toUnsigned
  rw [Int.emod_eq_of_lt h0 (by linarith), Int.toNat_of_nonneg h0]

/-- C10: `syscalls_mutexCreate` and `syscalls_condCreate` each return a negative
result of their collaborator as it is and leave user memory alone; for a
non-negative result `r` they return `EOK` with `r` stored at the handle
location and every other location as before. In both cases the kernel state is
the one the collaborator left. -/
theorem create_stores_handle {σ : Type} (proc_mutexCreate proc_condCreate : σ → Int × σ)
    (ustack : ArgBuf) (s : σ) (mem : Mem)
    (hm : (proc_mutexCreate s).1 < 2 ^ 31) (hc : (proc_condCreate s).1 < 2 ^ 31) :
    ((proc_mutexCreate s).1 < 0 →
        syscalls_mutexCreate proc_mutexCreate ustack s mem
          = ((proc_mutexCreate s).1, (proc_mutexCreate s).2, mem)) ∧
      (0 ≤ (proc_mutexCreate s).1 →
        (syscalls_mutexCreate proc_mutexCreate ustack s mem).1 = EOK ∧
        (syscalls_mutexCreate proc_mutexCreate ustack s mem).2.1 = (proc_mutexCreate s).2 ∧
        (syscalls_mutexCreate proc_mutexCreate ustack s mem).2.2 (ustack 0)
          = (proc_mutexCreate s).1 ∧
        ∀ a, a ≠ ustack 0 →
          (syscalls_mutexCreate proc_mutexCreate ustack s mem).2.2 a = mem a) ∧
      ((proc_condCreate s).1 < 0 →
        syscalls_condCreate proc_condCreate ustack s mem
          = ((proc_condCreate s).1, (proc_condCreate s).2, mem)) ∧
      (0 ≤ (proc_condCreate s).1 →
        (syscalls_condCreate proc_condCreate ustack s mem).1 = EOK ∧
        (syscalls_condCreate proc_condCreate ustack s mem).2.1 = (proc_condCreate s).2 ∧
        (syscalls_condCreate proc_condCreate ustack s mem).2.2 (ustack 0)
          = (proc_condCreate s).1 ∧
        ∀ a, a ≠ ustack 0 →
          (syscalls_condCreate proc_condCreate ustack s mem).2.2 a = mem a) := by
  refine ⟨?_, ?_, ?_, ?_⟩
  · intro h
    unfold syscalls_mutexCreate
    simp only [if_pos h]
  · intro h
    unfold syscalls_mutexCreate
    simp only [if_neg (not_lt.mpr h), getWord, Mem.write, if_true, toUnsigned_of_nonneg _ h hm,
      true_and]
    intro a ha
    rw [if_neg ha]
  · intro h
    unfold syscalls_condCreate
    simp only [if_pos h]
  · intro h
    unfold syscalls_condCreate
    simp only [if_neg (not_lt.mpr h), getWord, Mem.write, if_true, toUnsigned_of_nonneg _ h hc,
      true_and]
    intro a ha
    rw [if_neg ha]

/-- Witness of C10: the mutex table hands out handle 3, the condition table is
full and answers `-12`; the handle location is address 9. -/
theorem create_stores_handle_witness :
    (syscalls_mutexCreate exampleCreate exampleArgs 3 exampleMem).1 = EOK ∧
      (syscalls_mutexCreate exampleCreate exampleArgs 3 exampleMem).2.2 9 = 3 ∧
      syscalls_condCreate exampleCreateFull exampleArgs 3 exampleMem = (-12, 3, exampleMem) :=
  have h := create_stores_handle exampleCreate exampleCreateFull exampleArgs 3 exampleMem
    (by decide) (by decide)
  ⟨(h.2.1 (by decide)).1, (h.2.1 (by decide)).2.2.1, h.2.2.1 (by decide)⟩

/-! ## Posting a signal: delivery and reschedule -/

/-- C11: on the paths of `syscalls_signalPost` past its three `-EINVAL` guards
(the only paths a value other than `-EINVAL` can come from) the deliveries and
reschedule requests made are exactly one `threads_sigpost` for the process
found and the thread found (no thread when the tid is negative) followed by one
`hal_cpuReschedule`; on the three guarded paths there is neither. With a
negative tid the call does not depend on what a thread lookup would find. -/
theorem signalPost_delivers_once (env : PostEnv) (ustack : ArgBuf) (k : Kernel) :
    deliveries (emitted k (syscalls_signalPost env ustack k).2)
        = (if env.findProc (getInt ustack 0) = 0 ∨
              (getInt ustack 1 ≥ 0 ∧ env.findThread (getInt ustack 1) = 0) ∨
              (getInt ustack 1 ≥ 0 ∧ env.findThread (getInt ustack 1) ≠ 0 ∧
                env.process (env.findThread (getInt ustack 1)) ≠ env.findProc (getInt ustack 0))
            then []
            else [.sigpost (env.findProc (getInt ustack 0))
                    (if getInt ustack 1 ≥ 0 then env.findThread (getInt ustack 1) else 0)
                    (getInt ustack 2),
                  .reschedule]) ∧
      ((syscalls_signalPost env ustack k).1 ≠ -(env.errno.EINVAL : Int) →
        ¬ (env.findProc (getInt ustack 0) = 0 ∨
            (getInt ustack 1 ≥ 0 ∧ env.findThread (getInt ustack 1) = 0) ∨
            (getInt ustack 1 ≥ 0 ∧ env.findThread (getInt ustack 1) ≠ 0 ∧
              env.process (env.findThread (getInt ustack 1)) ≠ env.findProc (getInt ustack 0)))) ∧
      (getInt ustack 1 < 0 → ∀ f,
        syscalls_signalPost { env with findThread := f } ustack k
          = syscalls_signalPost env ustack k) := by
  refine ⟨?_, ?_, ?_⟩
  · rw [signalPost_run]
    by_cases hp : env.findProc (getInt ustack 0) = 0
    · simp [hp, emitted_self, deliveries]
    · by_cases ht : getInt ustack 1 ≥ 0
      · by_cases hf : env.findThread (getInt ustack 1) = 0
        · simp [hp, ht, hf, emitted_with, deliveries]
        · by_cases hq :
              env.process (env.findThread (getInt ustack 1)) = env.findProc (getInt ustack 0)
          · simp [hp, ht, hf, hq, emitted_with, deliveries]
          · simp [hp, ht, hf, hq, emitted_with, deliveries]
      · simp [hp, ht, emitted_with, deliveries]
  · rw [signalPost_run]
    by_cases hp : env.findProc (getInt ustack 0) = 0
    · simp [hp]
    · by_cases ht : getInt ustack 1 ≥ 0
      · by_cases hf : env.findThread (getInt ustack 1) = 0
        · simp [hp, ht, hf]
        · by_cases hq :
              env.process (env.findThread (getInt ustack 1)) = env.findProc (getInt ustack 0)
          · simp [hp, ht, hf, hq]
          · simp [hp, ht, hf, hq]
      · simp [hp, ht]
  · intro ht f
    have hn : ¬ getInt ustack 1 ≥ 0 := not_le.mpr ht
    rw [signalPost_run, signalPost_run]
    simp only [hn, if_false]

/-! ## Thread priority: properties -/

/-- C12: for a thread whose priority is in `0..7` and an argument `p`,
`syscalls_priority` returns the current priority and changes nothing when
`p = -1`, sets the priority to `p` and returns `p` when `0 <= p <= 7`, and
returns `-EINVAL` with the thread unchanged for every other `p`; the priority
afterwards is in `0..7` in every case. -/
theorem priority_stays_in_range (e : Errno) (ustack : ArgBuf) (thread : Thread) (p : Int)
    (hp : getInt ustack 0 = p) (hr : 0 ≤ thread.priority ∧ thread.priority ≤ 7) :
    (p = -1 → syscalls_priority e ustack thread = (thread.priority, thread)) ∧
      (0 ≤ p ∧ p ≤ 7 →
        syscalls_priority e ustack thread = (p, { thread with priority := p })) ∧
      (p ≠ -1 → ¬ (0 ≤ p ∧ p ≤ 7) →
        syscalls_priority e ustack thread = (-(e.EINVAL : Int), thread)) ∧
      0 ≤ (syscalls_priority e ustack thread).2.priority ∧
      (syscalls_priority e ustack thread).2.priority ≤ 7 := by
  unfold syscalls_priority
  rw [hp]
  by_cases h1 : p = -1
  · simp only [h1, if_true]
    refine ⟨fun _ => trivial, fun h => absurd h.1 (by decide), fun h => absurd rfl h, hr.1, hr.2⟩
  · by_cases h2 : p ≥ 0 ∧ p ≤ 7
    · simp only [if_neg h1, if_pos h2]
      exact ⟨fun h => absurd h h1, fun _ => trivial, fun _ h => absurd h2 h, h2.1, h2.2⟩
    · simp only [if_neg h1, if_neg h2]
      exact ⟨fun h => absurd h h1, fun h => absurd h h2, fun _ _ => trivial, hr.1, hr.2⟩

/-- Witness of C12: a thread at priority 4 asks for priority 3. -/
theorem priority_stays_in_range_witness :
    syscalls_priority exampleErrno exampleMaskArgs exampleThread
        = (3, { exampleThread with priority := 3 }) ∧
      0 ≤ (syscalls_priority exampleErrno exampleMaskArgs exampleThread).2.priority ∧
      (syscalls_priority exampleErrno exampleMaskArgs exampleThread).2.priority ≤ 7 :=
  have h := priority_stays_in_range exampleErrno exampleMaskArgs exampleThread 3 (by decide)
    (by decide)
  ⟨h.2.1 (by decide), h.2.2.2⟩

/-! ## File read and write: properties -/

/-- In `syscalls_fileRead` and `syscalls_fileWrite` the descriptor, buffer and
byte count come from the argument buffer; the offset pointer is what the local
held on entry, and the fourth argument is stored through it. -/
theorem file_offset_is_stale (stale : Int) (ustack : ArgBuf) (mem : Mem) :
    (syscalls_fileRead stale ustack mem).1
        = { fildes := getInt ustack 0, buf := ustack 1, nbyte := ustack 2, offset := stale } ∧
      (syscalls_fileRead stale ustack mem).2 stale = ustack 3 ∧
      (syscalls_fileWrite stale ustack mem).1
        = { fildes := getInt ustack 0, buf := ustack 1, nbyte := ustack 2, offset := stale } ∧
      (syscalls_fileWrite stale ustack mem).2 stale = ustack 3 := by
  simp [syscalls_fileRead, syscalls_fileWrite, getWord, Mem.write]

/-- In `syscalls_fileSeek` the offset pointer handed on is the second argument
of the buffer and user memory is not written. -/
theorem fileSeek_offset_from_buffer (ustack : ArgBuf) (mem : Mem) :
    syscalls_fileSeek ustack mem = ((getInt ustack 0, ustack 1, getInt ustack 2), mem) := by
  simp [syscalls_fileSeek, getWord]

/-- C13, evaluated: two calls of `syscalls_fileRead` (and of
`syscalls_fileWrite`) on the same argument buffer, the uninitialised local
`offset` holding 4096 in one and 8192 in the other, hand different offset
pointers to the collaborator, and the fourth argument (64) is stored at the
address the local happened to hold. -/
theorem file_offset_differs_on_equal_buffers :
    (syscalls_fileRead 4096 exampleFileArgs exampleMem).1.offset = 4096 ∧
      (syscalls_fileRead 8192 exampleFileArgs exampleMem).1.offset = 8192 ∧
      (syscalls_fileRead 4096 exampleFileArgs exampleMem).2 4096 = 64 ∧
      (syscalls_fileWrite 4096 exampleFileArgs exampleMem).1.offset = 4096 ∧
      (syscalls_fileWrite 8192 exampleFileArgs exampleMem).1.offset = 8192 ∧
      (syscalls_fileWrite 4096 exampleFileArgs exampleMem).2 4096 = 64 := by
  decide

/-! ## Programs of the system page: properties -/

/-- C14: for a table length `0 <= progssz` and index `i`,
`syscalls_syspageprog` returns `progssz` when `i < 0` and `-EINVAL` when
`i >= progssz`, in both cases reading no entry and leaving the object behind
`prog` as it was; for `0 <= i < progssz` it returns `EOK` with `prog->addr` the
start of entry `i` and `prog->size` its `end - start` (at the width of the
address type), reading entry `i` only. Every index read lies inside the
table. -/
theorem syspageprog_in_bounds (e : Errno) (addrBits : Nat) (syspage : Syspage)
    (ustack : ArgBuf) (prog : SyspageProg) (i : Int)
    (hi : getInt ustack 1 = i) (hsz : 0 ≤ syspage.progssz ∧ syspage.progssz < 2 ^ 31) :
    (i < 0 →
        syscalls_syspageprog e addrBits syspage ustack prog = ⟨syspage.progssz, prog, []⟩) ∧
      (i ≥ syspage.progssz →
        syscalls_syspageprog e addrBits syspage ustack prog = ⟨-(e.EINVAL : Int), prog, []⟩) ∧
      (0 ≤ i ∧ i < syspage.progssz →
        (syscalls_syspageprog e addrBits syspage ustack prog).ret = EOK ∧
        (syscalls_syspageprog e addrBits syspage ustack prog).prog.addr
          = (syspage.progs i).start ∧
        (syscalls_syspageprog e addrBits syspage ustack prog).prog.size
          = ((syspage.progs i).end_ - (syspage.progs i).start) % 2 ^ addrBits ∧
        (0 ≤ (syspage.progs i).start ∧ (syspage.progs i).start ≤ (syspage.progs i).end_ ∧
            (syspage.progs i).end_ < 2 ^ addrBits →
          (syscalls_syspageprog e addrBits syspage ustack prog).prog.size
            = (syspage.progs i).end_ - (syspage.progs i).start) ∧
        ∀ j ∈ (syscalls_syspageprog e addrBits syspage ustack prog).reads, j = i) ∧
      ∀ j ∈ (syscalls_syspageprog e addrBits syspage ustack prog).reads,
        0 ≤ j ∧ j < syspage.progssz := by
  unfold syscalls_syspageprog
  rw [hi]
  by_cases h1 : i < 0
  · simp only [if_pos h1]
    refine ⟨fun _ => trivial, fun h => ?_, fun h => absurd h1 (not_lt.mpr h.1), ?_⟩
    · exact absurd (lt_of_lt_of_le h1 hsz.1) (not_lt.mpr h)
    · intro j hj
      cases hj
  · by_cases h2 : i ≥ syspage.progssz
    · simp only [if_neg h1, if_pos h2]
      refine ⟨fun h => absurd h h1, fun _ => trivial, fun h => absurd h.2 (not_lt.mpr h2), ?_⟩
      intro j hj
      cases hj
    · simp only [if_neg h1, if_neg h2]
      have hall : ∀ j ∈ [i, i, i, i], j = i := by
        intro j hj
        simp only [List.mem_cons, List.mem_singleton, or_self, List.mem_nil_iff,
          or_false] at hj
        exact hj
      refine ⟨fun h => absurd h h1, fun h => absurd h h2, fun _ => ⟨trivial, trivial, trivial, ?_, hall⟩, ?_⟩
      · intro hb
        exact Int.emod_eq_of_lt (by linarith [hb.1, hb.2.1]) (by linarith [hb.1, hb.2.2])
      · intro j hj
        rw [hall j hj]
        exact ⟨not_lt.mp h1, not_le.mp h2⟩

/-- Witness of C14: entry 1 of a two-entry table. -/
theorem syspageprog_in_bounds_witness :
    (syscalls_syspageprog exampleErrno 32 exampleSyspage exampleProgArgs exampleProg).ret = EOK ∧
      (syscalls_syspageprog exampleErrno 32 exampleSyspage exampleProgArgs exampleProg).prog.addr
        = 8192 ∧
      (syscalls_syspageprog exampleErrno 32 exampleSyspage exampleProgArgs exampleProg).prog.size
        = 512 ∧
      ∀ j ∈ (syscalls_syspageprog exampleErrno 32 exampleSyspage exampleProgArgs exampleProg).reads,
        0 ≤ j ∧ j < exampleSyspage.progssz :=
  have h := syspageprog_in_bounds exampleErrno 32 exampleSyspage exampleProgArgs exampleProg 1
    (by decide) (by decide)
  have h3 := h.2.2.1 (by decide)
  ⟨h3.1, h3.2.1, h3.2.2.2.1 (by decide), h.2.2.2⟩

end Syscalls
